import Mathlib

/-!
Verification development for the envio indexer blueprint wizard automation.

The definitions below are a shallow embedding of the interactive-wizard
driver found in `src/envio_utils/project.rs` (`EnvioManager::init_project`
and `EnvioManager::handle_envio_prompts`), together with the data model of
`src/envio_utils/config.rs` and the network table of
`src/network/definitions.rs`.

Strings are processed through their underlying character lists so that all
definitions are executable by the kernel; the helpers `isPrefixL`,
`hasSubL`, `splitNl`, `rustLines`, `trimL` embed the Rust standard library
functions `str::starts_with`, `str::contains`, `str::lines` and
`str::trim` used by the source.
-/

namespace EnvioSpec

/-! ## String helpers embedding the Rust string functions used by the source -/

/-- Embedding of `str::starts_with` on character lists. -/
def isPrefixL : List Char → List Char → Bool
  | [], _ => true
  | _ :: _, [] => false
  | a :: as, b :: bs => a == b && isPrefixL as bs

/-- Embedding of `str::contains` (substring containment) on character lists. -/
def hasSubL (pat : List Char) : List Char → Bool
  | [] => pat.isEmpty
  | c :: rest => isPrefixL pat (c :: rest) || hasSubL pat rest

/-- Split a character list at newline characters; every segment is returned,
including a trailing empty segment for a trailing newline. -/
def splitNl : List Char → List (List Char)
  | [] => [[]]
  | c :: t =>
    match splitNl t with
    | [] => [[c]]
    | l :: ls => if c == '\n' then [] :: l :: ls else (c :: l) :: ls

/-- Remove one trailing carriage return, as `str::lines` does. -/
def stripCr (l : List Char) : List Char :=
  match l.reverse with
  | '\r' :: t => t.reverse
  | _ => l

/-- Embedding of `str::lines`: split at newlines, drop the final empty
segment produced by a trailing newline, strip a trailing carriage return. -/
def rustLines (s : String) : List (List Char) :=
  let ps := splitNl s.data
  let ps := match ps.getLast? with
    | some [] => ps.dropLast
    | _ => ps
  ps.map stripCr

/-- Embedding of `str::trim` on character lists. -/
def trimL (l : List Char) : List Char :=
  ((l.dropWhile Char.isWhitespace).reverse.dropWhile Char.isWhitespace).reverse

/-- Embedding of `str::starts_with` on strings. -/
def rustStartsWith (s pre : String) : Bool :=
  isPrefixL pre.data s.data

/-- Embedding of `str::contains` on strings. -/
def rustContains (s pat : String) : Bool :=
  hasSubL pat.data s.data

/-- Embedding of `name.to_lowercase().replace(' ', "-")` from the
blockchain-selection arm of `handle_envio_prompts`. -/
def hyphenate (s : String) : String :=
  ⟨(s.data.map Char.toLower).map (fun c => if c == ' ' then '-' else c)⟩

/-- Embedding of `str::parse::<u64>`: an optional leading plus sign, then
one or more decimal digits, with the value below `2 ^ 64`. -/
def parseU64 (s : String) : Option Nat :=
  let t := if isPrefixL ['+'] s.data then s.data.drop 1 else s.data
  if t.isEmpty then none
  else if t.all Char.isDigit then
    let v := t.foldl (fun acc c => acc * 10 + (c.toNat - 48)) 0
    if v < 2 ^ 64 then some v else none
  else none

/-! ## Data model (`src/envio_utils/config.rs`) -/

/-- Embedding of `ContractSource`.  The `abi` and `explorer` variants are
declared in `src/envio_utils/config.rs`.  The `inferred` variant is matched
by `get_abi` and tested by `is_inferred` in `src/envio_utils/project.rs`;
its declaration lives in the envio_utils module root, which is missing from
src.  Modelled from the spec: section 3 lists `Inferred` (no ABI; the
wizard fetches it itself) as the third variant of the tagged union. -/
inductive ContractSource where
  | abi (abi : Option String) (url : Option String)
  | explorer (api_url : String)
  | inferred
  deriving DecidableEq, Repr

/-- Modelled from the spec: the `is_explorer` helper used by
`handle_envio_prompts` is defined in the envio_utils module root, which is
missing from src; it recognises the `Explorer` variant. -/
def ContractSource.isExplorer : ContractSource → Bool
  | .explorer _ => true
  | _ => false

/-- Modelled from the spec: the `is_inferred` helper used by
`init_project` and `handle_envio_prompts` is defined in the envio_utils
module root, which is missing from src; it recognises the `Inferred`
variant. -/
def ContractSource.isInferred : ContractSource → Bool
  | .inferred => true
  | _ => false

/-- Embedding of `ContractDeployment`. -/
structure ContractDeployment where
  network_id : String
  address : String
  rpc_url : String
  proxy_address : Option String := none
  start_block : Option Nat := none
  deriving DecidableEq, Repr

/-- Embedding of `ContractConfig`. -/
structure ContractConfig where
  name : String
  source : ContractSource
  deployments : List ContractDeployment
  deriving DecidableEq, Repr

/-! ## Network table (`src/network/definitions.rs`)

Only the `name` field of `NetworkInfo` is consumed by
`handle_envio_prompts`, so the map is embedded as an association list from
chain id to network name, with exactly the entries of `define_networks!`. -/

def SUPPORTED_NETWORKS : List (Nat × String) :=
  [ (42161, "Arbitrum"), (42170, "Arbitrum Nova"), (421614, "Arbitrum Sepolia"),
    (1313161554, "Aurora"), (43114, "Avalanche"), (1123, "B2 Testnet"),
    (8453, "Base"), (84532, "Base Sepolia"), (80084, "Berachain Bartio"),
    (81457, "Blast"), (168587773, "Blast Sepolia"), (288, "Boba"),
    (56, "BSC"), (97, "BSC Testnet"), (2001, "C1 Milkomeda"),
    (42220, "Celo"), (8888, "Chiliz"), (5115, "Citrea Testnet"),
    (44, "Crab"), (7560, "Cyber"), (46, "Darwinia"),
    (1, "Ethereum Mainnet"), (250, "Fantom"), (14, "Flare"),
    (43113, "Fuji"), (696969, "Galadriel Devnet"), (100, "Gnosis"),
    (10200, "Gnosis Chiado"), (5, "Goerli"), (1666600000, "Harmony Shard 0"),
    (17000, "Holesky"), (16858666, "Internal Test Chain"), (255, "Kroma"),
    (59144, "Linea"), (1135, "Lisk"), (42, "Lukso"),
    (4201, "Lukso Testnet"), (169, "Manta"), (5000, "Mantle"),
    (4200, "Merlin"), (1088, "Metis"), (17864, "Mev Commit"),
    (34443, "Mode"), (1287, "Moonbase Alpha"), (1284, "Moonbeam"),
    (2818, "Morph"), (2810, "Morph Testnet"), (245022934, "Neon EVM"),
    (204, "opBNB"), (10, "Optimism"), (11155420, "Optimism Sepolia"),
    (137, "Polygon"), (80002, "Polygon Amoy"), (1101, "Polygon zkEVM"),
    (30, "Rootstock"), (7225878, "Saakuru"), (534352, "Scroll"),
    (11155111, "Sepolia"), (148, "Shimmer EVM"), (50104, "Sophon"),
    (531050104, "Sophon Testnet"), (5845, "Tangle"), (1301, "Unichain Sepolia"),
    (196, "X Layer"), (7000, "Zeta"), (48900, "Zircuit"),
    (324, "ZKSync"), (7777777, "Zora") ]

/-- Embedding of `SUPPORTED_NETWORKS.get(&network_id)` restricted to the
`name` field, the only field the prompt handler reads. -/
def lookupNetwork (id : Nat) : Option String :=
  (SUPPORTED_NETWORKS.find? (fun p => p.1 == id)).map (fun p => p.2)

/-! ## Prompt classification (`handle_envio_prompts`, lines 386 to 422)

`handle_envio_prompts` accumulates the available lines, takes the most
recent line containing a question mark, trims it, and dispatches on an
ordered chain of substring tests.  `currentPromptL` embeds the extraction;
`classifyPrompt` embeds the ordered tests of the `match` arms, one
`PromptKind` constructor per arm. -/

/-- Embedding of
`prompt.lines().rev().find(|line| line.contains(QUESTION)).unwrap_or("").trim()`. -/
def currentPromptL (w : String) : List Char :=
  trimL (((rustLines w).reverse.find? (fun l => l.contains '?')).getD [])

/-- One constructor per arm of the `match current_prompt` statement in
`handle_envio_prompts`, in source order. -/
inductive PromptKind where
  | folderName | language | ecosystem | events | abiPath | importSource
  | blockchainList | chooseNetwork | networkId | contractName
  | contractAddress | addAnother | apiToken | templateReady | finalDone
  | unrecognized
  deriving DecidableEq, Repr

/-- Embedding of the ordered substring tests of the `match` arms. -/
def classifyPrompt (s : List Char) : PromptKind :=
  if hasSubL "Specify a folder name".data s then .folderName
  else if hasSubL "Which language would you like to use?".data s
      || hasSubL "Javascript".data s || hasSubL "Typescript".data s
      || hasSubL "ReScript".data s then .language
  else if hasSubL "Choose blockchain ecosystem".data s then .ecosystem
  else if hasSubL "Which events would you like to index?".data s
      || (hasSubL "space to select one".data s
          && hasSubL "type to filter".data s) then .events
  else if hasSubL "What is the path to your json abi file?".data s then .abiPath
  else if hasSubL "Would you like to import from a block explorer or a local abi".data s then
    .importSource
  else if hasSubL "Which blockchain would you like to import a contract from?".data s then
    .blockchainList
  else if hasSubL "Choose network:".data s
      || hasSubL "<Enter Network Id>".data s then .chooseNetwork
  else if hasSubL "Enter the network id:".data s then .networkId
  else if hasSubL "What is the name of this contract?".data s
      || hasSubL "Use the proxy address if your abi is a proxy implementation".data s then
    .contractName
  else if hasSubL "What is the address of the contract?".data s then .contractAddress
  else if hasSubL "Would you like to add another contract?".data s then .addAnother
  else if hasSubL "Add an API token for HyperSync to your .env file?".data s
      || hasSubL "Add your API token:".data s then .apiToken
  else if hasSubL "Project template ready".data s then .templateReady
  else if hasSubL "You can always visit \x27https://envio.dev/app/api-tokens\x27 and add a token later to your .env file.".data s then
    .finalDone
  else .unrecognized

/-- Classification of a raw output window. -/
def classify (w : String) : PromptKind :=
  classifyPrompt (currentPromptL w)

/-! ## Response planner -/

/-- Raw bytes written to the pseudo terminal: `session.send` text (the down
arrow is the text `ESC [ B`) or `session.send_control` bytes (`ctrl m` is
Enter). -/
inductive Send where
  | text (s : String)
  | ctrl (c : Char)
  deriving DecidableEq, Repr

/-- The down-arrow escape sequence sent by `session.send` for menu moves. -/
def downArrow : Send := .text "\x1B[B"

/-- Number of down-arrow keystrokes in a planned output. -/
def downCount (sends : List Send) : Nat :=
  sends.count downArrow

/-- The mutable iteration state threaded through `handle_envio_prompts`:
`current_contract_idx`, `current_deployment_idx` and the `success` flag of
`init_project`. -/
structure PState where
  contractIdx : Nat
  deploymentIdx : Nat
  success : Bool
  deriving DecidableEq, Repr

/-- The address normalization inlined in the contract-address arm:
prepend `0x` when the address does not already start with it. -/
def normalizeAddress (s : String) : String :=
  if !rustStartsWith s "0x" then "0x" ++ s else s

/-- External collaborators of `init_project`, passed as parameters of the
embedding: the chain list of the envio_utils module root (missing from
src), ABI fetching over HTTP, the `ENVIO_API_URL` environment variable,
the exit-status classification of the wizard process and the existence of
`config.yaml` in the working directory after it exits. -/
structure Env where
  chainList : List String
  fetch : String → Option String
  envApiUrl : Option String
  exitOk : Bool
  configExists : Bool

/-- Embedding of the action part of each `match` arm of
`handle_envio_prompts`: from the classified prompt and the iteration state
to the planned keystrokes, the updated state, and the returned `bool`
(`true` means the loop in `init_project` is finished).  `none` embeds a
Rust panic: an out-of-bounds index, or a failed `expect` in the
blockchain-selection arm. -/
def planFor (env : Env) (contracts : List ContractConfig) (k : PromptKind)
    (promptEmpty : Bool) (st : PState) : Option (List Send × PState × Bool) :=
  match k with
  | .folderName => some ([.text ".", .ctrl 'm'], st, false)
  | .language => some ([.ctrl 'm'], st, false)
  | .ecosystem => some ([.ctrl 'm'], st, false)
  | .events => some ([.ctrl 'm'], st, false)
  | .abiPath =>
    match contracts[st.contractIdx]? with
    | none => none
    | some c => some ([.text ("./abis/" ++ c.name ++ "_abi.json"), .ctrl 'm'], st, false)
  | .importSource =>
    match contracts[st.contractIdx]? with
    | none => none
    | some c =>
      if c.source.isExplorer || c.source.isInferred then
        some ([.ctrl 'm'], st, false)
      else
        some ([downArrow, .ctrl 'm'], st, false)
  | .blockchainList =>
    match contracts[st.contractIdx]? with
    | none => none
    | some c =>
      match c.deployments[st.deploymentIdx]? with
      | none => none
      | some d =>
        match lookupNetwork ((parseU64 d.network_id).getD 0) with
        | none => none
        | some name =>
          match env.chainList.findIdx? (fun x => x == hyphenate name) with
          | none => none
          | some chainIdx =>
            some (List.replicate chainIdx downArrow ++ [.ctrl 'm'], st, false)
  | .chooseNetwork => some ([.ctrl 'm'], st, false)
  | .networkId =>
    match contracts[st.contractIdx]? with
    | none => none
    | some c =>
      match c.deployments[st.deploymentIdx]? with
      | none => none
      | some d => some ([.text d.network_id, .ctrl 'm'], st, false)
  | .contractName =>
    match contracts[st.contractIdx]? with
    | none => none
    | some c => some ([.text c.name, .ctrl 'm'], st, false)
  | .contractAddress =>
    match contracts[st.contractIdx]? with
    | none => none
    | some c =>
      match c.deployments[st.deploymentIdx]? with
      | none => none
      | some d => some ([.text (normalizeAddress d.address), .ctrl 'm'], st, false)
  | .addAnother =>
    match contracts[st.contractIdx]? with
    | none => none
    | some c =>
      match c.deployments[st.deploymentIdx]? with
      | none => none
      | some d =>
        if st.deploymentIdx + 1 < c.deployments.length then
          match c.deployments[st.deploymentIdx + 1]? with
          | none => none
          | some nd =>
            if nd.network_id == d.network_id then
              some ([downArrow, .ctrl 'm'],
                { st with deploymentIdx := st.deploymentIdx + 1 }, false)
            else
              some ([downArrow, downArrow, .ctrl 'm'],
                { st with deploymentIdx := st.deploymentIdx + 1 }, false)
        else if st.contractIdx + 1 < contracts.length then
          some ([downArrow, downArrow, downArrow, .ctrl 'm'],
            { st with contractIdx := st.contractIdx + 1, deploymentIdx := 0 }, false)
        else
          some ([.ctrl 'm'], st, false)
  | .apiToken => some ([downArrow, downArrow, .ctrl 'm'], st, false)
  | .templateReady => some ([.ctrl 'm'], st, true)
  | .finalDone => some ([.ctrl 'm'], { st with success := true }, true)
  | .unrecognized =>
      if promptEmpty then some ([], st, false) else some ([.ctrl 'm'], st, false)

/-- One invocation of `handle_envio_prompts` on the output window `w`:
classify the window, then plan and update the state. -/
def handleEnvioPrompts (env : Env) (contracts : List ContractConfig)
    (w : String) (st : PState) : Option (List Send × PState × Bool) :=
  planFor env contracts (classify w) (currentPromptL w).isEmpty st

/-! ## Driver loop (`init_project`, lines 287 to 376)

The pseudo-terminal session is modelled as a script of events, one per
iteration of the `loop` in `init_project`.  A `window` event delivers an
output window whose planned keystrokes are all written successfully.  An
`eofWith` event delivers the final output window of a wizard process that
has reached end of input: the reads still return the window (`read_line`
swallows the EOF inside `handle_envio_prompts`), but every write to the
closed pseudo terminal fails with the raw OS error 5, which
`init_project` receives as the `rexpect` IO error of its lines 313 to 323.
The `Err(EOF)` arm of line 311 is unreachable under this session model
because `rexpect` raises `EOF` only from reads, which
`handle_envio_prompts` catches itself. -/

inductive TermEvent where
  | window (w : String)
  | eofWith (w : String)
  deriving DecidableEq, Repr

/-- How the `loop` of `init_project` ends.  `hung` means the script was
exhausted while the loop still polls: the code would keep iterating. -/
inductive LoopExit where
  | finished (st : PState)
  | io5Break (st : PState)
  | errExited
  | panicked
  | hung (st : PState)
  deriving DecidableEq, Repr

/-- Embedding of the `loop` of `init_project`, instrumented with the list
of `(current_contract_idx, current_deployment_idx)` values at each
add-another-contract prompt, the moments at which the wizard finishes one
deployment entry. -/
def runScript (env : Env) (contracts : List ContractConfig) :
    List TermEvent → PState → LoopExit × List (Nat × Nat)
  | [], st => (.hung st, [])
  | .window w :: rest, st =>
    let tr : List (Nat × Nat) :=
      if classify w = .addAnother then [(st.contractIdx, st.deploymentIdx)] else []
    match handleEnvioPrompts env contracts w st with
    | none => (.panicked, tr)
    | some (_, st', true) => (.finished st', tr)
    | some (_, st', false) =>
      let r := runScript env contracts rest st'
      (r.1, tr ++ r.2)
  | .eofWith w :: rest, st =>
    match handleEnvioPrompts env contracts w st with
    | none => (.panicked, [])
    | some (sends, st', _) =>
      if sends.isEmpty then runScript env contracts rest st'
      else if st'.success then (.io5Break st', []) else (.errExited, [])

/-! ## ABI preparation (`init_project` lines 259 to 271, `get_abi`) -/

/-- Embedding of `get_abi`: `none` embeds any `Err(_)` outcome.  The
explorer branch consults the `ENVIO_API_URL` environment variable with the
default `https://envio.dev/api` when the stored api url is empty. -/
def getAbi (env : Env) (c : ContractConfig) : Option String :=
  match c.source with
  | .abi abi url =>
    match abi, url with
    | some abiStr, _ => some abiStr
    | none, some u => env.fetch u
    | none, none => none
  | .explorer api_url =>
    let api := if api_url.isEmpty then env.envApiUrl.getD "https://envio.dev/api" else api_url
    env.fetch api
  | .inferred => none

/-- Embedding of the ABI loop of `init_project`: for each contract, resolve
the ABI and write `{name}_abi.json`; on `Err(_)` the contract is skipped
with `continue`. -/
def abiFiles (env : Env) : List ContractConfig → List (String × String)
  | [] => []
  | c :: rest =>
    match getAbi env c with
    | some abi => (c.name ++ "_abi.json", abi) :: abiFiles env rest
    | none => abiFiles env rest

/-! ## `init_project` outcomes -/

/-- The `EnvioError` constructors produced on the modelled paths of
`init_project`, with their exact messages. -/
inductive EnvioErr where
  | invalidState (msg : String)
  | processFailed (msg : String)
  deriving DecidableEq, Repr

/-- Result of one modelled run of `init_project`.  `panicked` embeds a
Rust panic escaping the call; `hung` embeds the loop never returning. -/
inductive InitResult where
  | ok
  | err (e : EnvioErr)
  | panicked
  | hung
  deriving DecidableEq, Repr

/-- Embedding of `init_project`: the empty-contracts guard, the ABI loop,
the spawn-command choice, the prompt loop, the exit-status check and the
`config.yaml` check, in source order.  The first component is the command
line handed to `spawn` (`none` when no session is ever created). -/
def initProject (env : Env) (contracts : List ContractConfig)
    (script : List TermEvent) : Option String × InitResult :=
  if contracts.isEmpty then
    (none, .err (.invalidState "No contracts provided for initialization"))
  else
    let _files := abiFiles env contracts
    let isFirstContractInferred :=
      match contracts with
      | [] => false
      | c :: _ => c.source.isInferred
    let cmd := if isFirstContractInferred then "envio init" else "envio init contract-import local"
    let r := runScript env contracts script ⟨0, 0, false⟩
    let res :=
      match r.1 with
      | .hung _ => .hung
      | .panicked => .panicked
      | .errExited => .err (.processFailed "Envio process exited unexpectedly")
      | .finished _ | .io5Break _ =>
        if env.exitOk then
          if env.configExists then .ok
          else .err (.invalidState "Project initialization failed: config.yaml not created")
        else .err (.processFailed "Envio process exited unexpectedly")
    (some cmd, res)

/-! ## The scripted wizard

Concrete output windows for the known prompts of the wizard, each carrying
the question line the classifier extracts, and the scripted prompt
sequence of a full contract-import run: the folder and language prompts,
then for each deployment entry its entry block followed by the
add-another-contract menu, and finally the template-ready message. -/

def folderW : String := "? Specify a folder name\n"
def languageW : String := "? Which language would you like to use?\n"
def eventsW : String := "? Which events would you like to index?\n"
def importSourceW : String :=
  "? Would you like to import from a block explorer or a local abi?\n"
def abiPathW : String := "? What is the path to your json abi file?\n"
def chooseNetworkW : String := "? Choose network:\n"
def networkIdW : String := "? Enter the network id:\n"
def nameW : String := "? What is the name of this contract?\n"
def addressW : String := "? What is the address of the contract?\n"
def addAnotherW : String := "? Would you like to add another contract?\n"
def templateW : String := "? Project template ready\n"

/-- Entry block for the first deployment of a contract: import source, the
ABI path when the source is a local ABI, event selection, contract name,
network and address. -/
def newContractBlock (c : ContractConfig) : List String :=
  [importSourceW]
    ++ (match c.source with
        | .abi _ _ => [abiPathW]
        | _ => [])
    ++ [eventsW, nameW, chooseNetworkW, networkIdW, addressW]

/-- Entry block for a further deployment on the same network: only a new
address is requested. -/
def sameNetBlock : List String := [addressW]

/-- Entry block for a further deployment on a different network. -/
def diffNetBlock : List String := [chooseNetworkW, networkIdW, addressW]

/-- Script tail for the remaining deployments of the current contract:
the add-another menu closing the current entry, then for each further
deployment its block and recursively the rest. -/
def depsTail (prev : ContractDeployment) :
    List ContractDeployment → List String
  | [] => [addAnotherW]
  | d :: rest =>
    addAnotherW ::
      ((if d.network_id == prev.network_id then sameNetBlock else diffNetBlock)
        ++ depsTail d rest)

/-- Script for a list of contracts: each contract contributes the block of
its first deployment and the tail over its further deployments. -/
def contractsTail : List ContractConfig → List String
  | [] => []
  | c :: rest =>
    (match c.deployments with
     | [] => []
     | d :: ds => newContractBlock c ++ depsTail d ds)
      ++ contractsTail rest

/-- The known prompt sequence of the wizard for a given contract list. -/
def knownScript (contracts : List ContractConfig) : List TermEvent :=
  ([folderW, languageW] ++ contractsTail contracts ++ [templateW]).map .window

/-- All `(contract_index, deployment_index)` pairs of a contract list in
list order, starting at contract index `i`. -/
def pairsAux (i : Nat) : List ContractConfig → List (Nat × Nat)
  | [] => []
  | c :: rest =>
    (List.range c.deployments.length).map (fun j => (i, j)) ++ pairsAux (i + 1) rest

/-- All `(contract_index, deployment_index)` pairs in list order. -/
def allPairs (contracts : List ContractConfig) : List (Nat × Nat) :=
  pairsAux 0 contracts

/-- The cursor pairs `(i, p), (i, p + 1), ..., (i, p + n)` visited while
the remaining deployments of contract `i` are processed. -/
def pairsSeq (i : Nat) : Nat → Nat → List (Nat × Nat)
  | p, 0 => [(i, p)]
  | p, Nat.succ n => (i, p) :: pairsSeq i (p + 1) n

/-- The cursor invariant of the driver loop: the contract index is in
bounds and the deployment index is in bounds for the current contract. -/
def validSt (contracts : List ContractConfig) (st : PState) : Bool :=
  match contracts[st.contractIdx]? with
  | some c => st.deploymentIdx < c.deployments.length
  | none => false

/-- Run a list of windows requiring every step to continue the loop: the
final iteration state, or `none` when some step panics or finishes. -/
def contWindows (env : Env) (contracts : List ContractConfig) :
    List String → PState → Option PState
  | [], st => some st
  | w :: ws, st =>
    match handleEnvioPrompts env contracts w st with
    | some (_, st', false) => contWindows env contracts ws st'
    | _ => none

/-! ## Concrete fixtures used by the witnesses -/

def fetchNone : String → Option String := fun _ => none

def envT : Env :=
  { chainList := ["ethereum-mainnet"], fetch := fetchNone, envApiUrl := none,
    exitOk := true, configExists := true }

def envNoConfig : Env := { envT with configExists := false }

def envNoChains : Env := { envT with chainList := [] }

def depEth : ContractDeployment := { network_id := "1", address := "abc", rpc_url := "rpc" }

def depEth2 : ContractDeployment := { network_id := "1", address := "0xdef", rpc_url := "rpc" }

def depOpt : ContractDeployment := { network_id := "10", address := "opt", rpc_url := "rpc" }

def conA : ContractConfig :=
  { name := "TokenA", source := .abi (some "[]") none, deployments := [depEth, depEth2] }

def conB : ContractConfig :=
  { name := "TokenB", source := .explorer "", deployments := [depOpt] }

def conBad : ContractConfig :=
  { name := "Broken", source := .abi none none, deployments := [depEth] }

/-! ## Shared lemmas -/

theorem rustStartsWith_0x_append (s : String) : rustStartsWith ("0x" ++ s) "0x" = true := by
  have h0 : "0x".data = ['0', 'x'] := by decide
  have h : ("0x" ++ s).data = '0' :: 'x' :: s.data := by
    rw [String.data_append, h0]
    rfl
  unfold rustStartsWith
  rw [h, h0]
  rfl

/-! ## C7: address normalization -/

/-- C7.  Contract-address normalization is idempotent and
prefix-equalizing: for every address string not starting with `0x`,
normalizing prepends `0x` and agrees with normalizing the already-prefixed
string, and normalizing twice equals normalizing once. -/
theorem claim7_normalize_idempotent (s : String) :
    (rustStartsWith s "0x" = false →
      normalizeAddress s = "0x" ++ s ∧ normalizeAddress ("0x" ++ s) = "0x" ++ s) ∧
    normalizeAddress (normalizeAddress s) = normalizeAddress s := by
  constructor
  · intro h
    constructor
    · simp [normalizeAddress, h]
    · simp [normalizeAddress, rustStartsWith_0x_append]
  · by_cases h : rustStartsWith s "0x" = true
    · simp [normalizeAddress, h]
    · have h' : rustStartsWith s "0x" = false := by
        simpa using h
      simp [normalizeAddress, h', rustStartsWith_0x_append]

/-- Witness for C7 at the concrete address `abc`. -/
theorem claim7_normalize_idempotent_witness :
    rustStartsWith "abc" "0x" = false ∧
    (normalizeAddress "abc" = "0xabc" ∧ normalizeAddress "0xabc" = "0xabc") ∧
    normalizeAddress (normalizeAddress "abc") = normalizeAddress "abc" :=
  ⟨by decide, (claim7_normalize_idempotent "abc").1 (by decide),
    (claim7_normalize_idempotent "abc").2⟩

/-! ## C8: empty contract list -/

/-- C8.  `init_project` on an empty contract list returns the
`InvalidState` error with message `No contracts provided for
initialization` and never spawns a wizard session (the spawn command
component is `none`). -/
theorem claim8_empty_contracts (env : Env) (script : List TermEvent) :
    initProject env [] script =
      (none, .err (.invalidState "No contracts provided for initialization")) :=
  rfl

/-! ## C1: the add-another-contract menu offsets -/

/-- C1.  At the add-another-contract prompt the planner decides the menu
offset from the next item before advancing the cursor: a further
deployment with the same network id yields one down arrow and advances the
deployment index; a different network id yields two down arrows and
advances the deployment index; an exhausted deployment list with a further
contract yields three down arrows and moves to the next contract at
deployment index zero; with everything exhausted only Enter is pressed and
the cursor does not move. -/
theorem claim1_addAnother_offsets (env : Env) (contracts : List ContractConfig)
    (st : PState) (c : ContractConfig) (d : ContractDeployment)
    (hc : contracts[st.contractIdx]? = some c)
    (hd : c.deployments[st.deploymentIdx]? = some d) :
    (∀ nd, c.deployments[st.deploymentIdx + 1]? = some nd →
      nd.network_id = d.network_id →
      planFor env contracts .addAnother false st =
        some ([downArrow, .ctrl 'm'],
          { st with deploymentIdx := st.deploymentIdx + 1 }, false)) ∧
    (∀ nd, c.deployments[st.deploymentIdx + 1]? = some nd →
      nd.network_id ≠ d.network_id →
      planFor env contracts .addAnother false st =
        some ([downArrow, downArrow, .ctrl 'm'],
          { st with deploymentIdx := st.deploymentIdx + 1 }, false)) ∧
    (c.deployments.length ≤ st.deploymentIdx + 1 →
      st.contractIdx + 1 < contracts.length →
      planFor env contracts .addAnother false st =
        some ([downArrow, downArrow, downArrow, .ctrl 'm'],
          { st with contractIdx := st.contractIdx + 1, deploymentIdx := 0 }, false)) ∧
    (c.deployments.length ≤ st.deploymentIdx + 1 →
      contracts.length ≤ st.contractIdx + 1 →
      planFor env contracts .addAnother false st = some ([.ctrl 'm'], st, false)) ∧
    downCount [downArrow, .ctrl 'm'] = 1 ∧
    downCount [downArrow, downArrow, .ctrl 'm'] = 2 ∧
    downCount [downArrow, downArrow, downArrow, .ctrl 'm'] = 3 ∧
    downCount [Send.ctrl 'm'] = 0 := by
  refine ⟨?_, ?_, ?_, ?_, by decide, by decide, by decide, by decide⟩
  · intro nd hnd heq
    have hlt : st.deploymentIdx + 1 < c.deployments.length :=
      (List.getElem?_eq_some.mp hnd).1
    simp [planFor, hc, hd, hlt, hnd, heq]
  · intro nd hnd hne
    have hlt : st.deploymentIdx + 1 < c.deployments.length :=
      (List.getElem?_eq_some.mp hnd).1
    simp [planFor, hc, hd, hlt, hnd, hne]
  · intro hgt hlt
    have hnot : ¬ st.deploymentIdx + 1 < c.deployments.length := by omega
    simp [planFor, hc, hd, hnot, hlt]
  · intro hgt hge
    have hnot : ¬ st.deploymentIdx + 1 < c.deployments.length := by omega
    have hnot2 : ¬ st.contractIdx + 1 < contracts.length := by omega
    simp [planFor, hc, hd, hnot, hnot2]

/-- Witness for C1 on the fixture list `[conA, conB]`: same-network
advance at `(0,0)`, contract switch at `(0,1)` and final Enter at
`(1,0)`. -/
theorem claim1_addAnother_offsets_witness :
    ([conA, conB][0]? = some conA ∧ conA.deployments[0]? = some depEth ∧
      planFor envT [conA, conB] .addAnother false ⟨0, 0, false⟩ =
        some ([downArrow, .ctrl 'm'], ⟨0, 1, false⟩, false)) ∧
    ([conA, conB][1]? = some conB ∧ conB.deployments[0]? = some depOpt ∧
      planFor envT [conA, conB] .addAnother false ⟨1, 0, false⟩ =
        some ([.ctrl 'm'], ⟨1, 0, false⟩, false)) := by
  refine ⟨⟨by decide, by decide, ?_⟩, ⟨by decide, by decide, ?_⟩⟩
  · exact (claim1_addAnother_offsets envT [conA, conB] ⟨0, 0, false⟩ conA depEth
      (by decide) (by decide)).1 depEth2 (by decide) (by decide)
  · exact (claim1_addAnother_offsets envT [conA, conB] ⟨1, 0, false⟩ conB depOpt
      (by decide) (by decide)).2.2.2.1 (by decide) (by decide)

/-! ## C9: failed ABI resolution is skipped silently -/

/-- C9.  During ABI preparation a contract whose ABI resolution fails is
skipped with `continue`: the produced file list is exactly the one of the
list without that contract, no error is surfaced at that step, and
`init_project` still proceeds to spawn the wizard (the spawn command is
produced). -/
theorem claim9_abi_failure_skipped (env : Env) (pre post : List ContractConfig)
    (c : ContractConfig) (script : List TermEvent) (h : getAbi env c = none) :
    abiFiles env (pre ++ c :: post) = abiFiles env (pre ++ post) ∧
    (initProject env (pre ++ c :: post) script).1.isSome = true := by
  constructor
  · induction pre with
    | nil => simp [abiFiles, h]
    | cons hd tl ih =>
      simp only [List.cons_append, abiFiles]
      cases hga : getAbi env hd <;> simp [ih]
  · have hne : (pre ++ c :: post).isEmpty = false := by
      cases pre <;> simp
    simp [initProject, hne]

/-- Witness for C9: `conBad` has an `Abi` source with neither inline text
nor url, so its resolution fails and it contributes no file. -/
theorem claim9_abi_failure_skipped_witness :
    getAbi envT conBad = none ∧
    abiFiles envT ([conA] ++ conBad :: [conB]) = abiFiles envT ([conA] ++ [conB]) ∧
    (initProject envT ([conA] ++ conBad :: [conB]) []).1.isSome = true :=
  ⟨by decide,
    (claim9_abi_failure_skipped envT [conA] [conB] conBad [] (by decide)).1,
    (claim9_abi_failure_skipped envT [conA] [conB] conBad [] (by decide)).2⟩

/-! ## C10: partiality of the blockchain-selection arm -/

/-- C10.  The blockchain-selection handler is not total: with the cursor
on a valid contract and deployment it panics (returns `none`, embedding
the failed `expect` calls) exactly when the network id does not parse to a
`u64` that is a key of `SUPPORTED_NETWORKS` (an unparsable id defaults to
`0`, which is not a key), or when the resolved hyphenated network name is
absent from the chain list; under the complementary precondition the panic
branches are unreachable. -/
theorem claim10_blockchain_panics (env : Env) (contracts : List ContractConfig)
    (st : PState) (c : ContractConfig) (d : ContractDeployment)
    (hc : contracts[st.contractIdx]? = some c)
    (hd : c.deployments[st.deploymentIdx]? = some d) :
    planFor env contracts .blockchainList false st = none ↔
      ((∀ v, parseU64 d.network_id = some v → lookupNetwork v = none) ∨
        (∃ nm, lookupNetwork ((parseU64 d.network_id).getD 0) = some nm ∧
          env.chainList.findIdx? (fun x => x == hyphenate nm) = none)) := by
  cases hp : parseU64 d.network_id with
  | none =>
    have hl0 : lookupNetwork 0 = none := by decide
    exact iff_of_true (by simp [planFor, hc, hd, hp, hl0])
      (Or.inl (fun v hv => by simp [hp] at hv))
  | some v =>
    cases hlk : lookupNetwork v with
    | none =>
      refine iff_of_true (by simp [planFor, hc, hd, hp, hlk]) (Or.inl (fun v' hv' => ?_))
      obtain rfl : v = v' := Option.some.inj hv'
      exact hlk
    | some nm =>
      cases hidx : env.chainList.findIdx? (fun x => x == hyphenate nm) with
      | none =>
        exact iff_of_true (by simp [planFor, hc, hd, hp, hlk, hidx])
          (Or.inr ⟨nm, by simp [hp, hlk], hidx⟩)
      | some idx =>
        apply iff_of_false
        · simp [planFor, hc, hd, hp, hlk, hidx]
        · rintro (h1 | ⟨nm', hnm', hidx'⟩)
          · exact absurd hlk (by simp [h1 v rfl])
          · simp only [Option.getD_some] at hnm'
            rw [hlk] at hnm'
            obtain rfl : nm = nm' := Option.some.inj hnm'
            rw [hidx'] at hidx
            cases hidx

/-! ## Classification of the scripted windows -/

theorem classify_folderW : classify folderW = .folderName := by decide

theorem classify_languageW : classify languageW = .language := by decide

theorem classify_eventsW : classify eventsW = .events := by decide

theorem classify_importSourceW : classify importSourceW = .importSource := by decide

theorem classify_abiPathW : classify abiPathW = .abiPath := by decide

theorem classify_chooseNetworkW : classify chooseNetworkW = .chooseNetwork := by decide

theorem classify_networkIdW : classify networkIdW = .networkId := by decide

theorem classify_nameW : classify nameW = .contractName := by decide

theorem classify_addressW : classify addressW = .contractAddress := by decide

theorem classify_addAnotherW : classify addAnotherW = .addAnother := by decide

theorem classify_templateW : classify templateW = .templateReady := by decide

/-! ## Step lemmas for the scripted windows -/

section StepLemmas

variable (env : Env) (contracts : List ContractConfig)

theorem handle_folderW (st : PState) :
    handleEnvioPrompts env contracts folderW st =
      some ([.text ".", .ctrl 'm'], st, false) := by
  unfold handleEnvioPrompts
  rw [classify_folderW]
  rfl

theorem handle_languageW (st : PState) :
    handleEnvioPrompts env contracts languageW st = some ([.ctrl 'm'], st, false) := by
  unfold handleEnvioPrompts
  rw [classify_languageW]
  rfl

theorem handle_eventsW (st : PState) :
    handleEnvioPrompts env contracts eventsW st = some ([.ctrl 'm'], st, false) := by
  unfold handleEnvioPrompts
  rw [classify_eventsW]
  rfl

theorem handle_chooseNetworkW (st : PState) :
    handleEnvioPrompts env contracts chooseNetworkW st = some ([.ctrl 'm'], st, false) := by
  unfold handleEnvioPrompts
  rw [classify_chooseNetworkW]
  rfl

theorem handle_importSourceW (st : PState) (c : ContractConfig)
    (hc : contracts[st.contractIdx]? = some c) :
    ∃ sends, handleEnvioPrompts env contracts importSourceW st =
      some (sends, st, false) := by
  unfold handleEnvioPrompts
  rw [classify_importSourceW]
  cases hs : c.source with
  | abi a u =>
    exact ⟨[downArrow, .ctrl 'm'],
      by simp [planFor, hc, hs, ContractSource.isExplorer, ContractSource.isInferred]⟩
  | explorer a =>
    exact ⟨[.ctrl 'm'],
      by simp [planFor, hc, hs, ContractSource.isExplorer, ContractSource.isInferred]⟩
  | inferred =>
    exact ⟨[.ctrl 'm'],
      by simp [planFor, hc, hs, ContractSource.isExplorer, ContractSource.isInferred]⟩

theorem handle_abiPathW (st : PState) (c : ContractConfig)
    (hc : contracts[st.contractIdx]? = some c) :
    handleEnvioPrompts env contracts abiPathW st =
      some ([.text ("./abis/" ++ c.name ++ "_abi.json"), .ctrl 'm'], st, false) := by
  unfold handleEnvioPrompts
  rw [classify_abiPathW]
  simp [planFor, hc]

theorem handle_nameW (st : PState) (c : ContractConfig)
    (hc : contracts[st.contractIdx]? = some c) :
    handleEnvioPrompts env contracts nameW st =
      some ([.text c.name, .ctrl 'm'], st, false) := by
  unfold handleEnvioPrompts
  rw [classify_nameW]
  simp [planFor, hc]

theorem handle_networkIdW (st : PState) (c : ContractConfig) (d : ContractDeployment)
    (hc : contracts[st.contractIdx]? = some c)
    (hd : c.deployments[st.deploymentIdx]? = some d) :
    handleEnvioPrompts env contracts networkIdW st =
      some ([.text d.network_id, .ctrl 'm'], st, false) := by
  unfold handleEnvioPrompts
  rw [classify_networkIdW]
  simp [planFor, hc, hd]

theorem handle_addressW (st : PState) (c : ContractConfig) (d : ContractDeployment)
    (hc : contracts[st.contractIdx]? = some c)
    (hd : c.deployments[st.deploymentIdx]? = some d) :
    handleEnvioPrompts env contracts addressW st =
      some ([.text (normalizeAddress d.address), .ctrl 'm'], st, false) := by
  unfold handleEnvioPrompts
  rw [classify_addressW]
  simp [planFor, hc, hd]

theorem handle_templateW (st : PState) :
    handleEnvioPrompts env contracts templateW st = some ([.ctrl 'm'], st, true) := by
  unfold handleEnvioPrompts
  rw [classify_templateW]
  rfl

theorem handle_addAnotherW (st : PState) :
    handleEnvioPrompts env contracts addAnotherW st =
      planFor env contracts .addAnother false st := by
  unfold handleEnvioPrompts
  rw [classify_addAnotherW, (by decide : (currentPromptL addAnotherW).isEmpty = false)]

/-! ## Step lemmas for the driver loop -/

theorem runScript_window_continue (w : String) (rest : List TermEvent) (st : PState)
    (sends : List Send) (st' : PState)
    (h : handleEnvioPrompts env contracts w st = some (sends, st', false))
    (hna : classify w ≠ .addAnother) :
    runScript env contracts (.window w :: rest) st = runScript env contracts rest st' := by
  simp [runScript, h, hna]

theorem runScript_window_finished (w : String) (rest : List TermEvent) (st : PState)
    (sends : List Send) (st' : PState)
    (h : handleEnvioPrompts env contracts w st = some (sends, st', true))
    (hna : classify w ≠ .addAnother) :
    runScript env contracts (.window w :: rest) st = (.finished st', []) := by
  simp [runScript, h, hna]

theorem runScript_addAnother (rest : List TermEvent) (st : PState)
    (sends : List Send) (st' : PState)
    (h : planFor env contracts .addAnother false st = some (sends, st', false)) :
    runScript env contracts (.window addAnotherW :: rest) st =
      ((runScript env contracts rest st').1,
        (st.contractIdx, st.deploymentIdx) :: (runScript env contracts rest st').2) := by
  simp [runScript, handle_addAnotherW, h, classify_addAnotherW]

theorem runScript_windows_append (ws : List String) (evs : List TermEvent)
    (st st' : PState)
    (h : contWindows env contracts ws st = some st')
    (hna : ∀ w ∈ ws, classify w ≠ .addAnother) :
    runScript env contracts (ws.map .window ++ evs) st =
      runScript env contracts evs st' := by
  induction ws generalizing st with
  | nil =>
    obtain rfl : st = st' := Option.some.inj h
    simp
  | cons w ws ih =>
    cases hh : handleEnvioPrompts env contracts w st with
    | none => rw [contWindows, hh] at h; cases h
    | some r =>
      obtain ⟨sends, st1, fin⟩ := r
      cases fin with
      | true => rw [contWindows, hh] at h; cases h
      | false =>
        rw [contWindows, hh] at h
        rw [List.map_cons, List.cons_append,
          runScript_window_continue env contracts w _ st sends st1 hh
            (hna w (List.mem_cons_self w ws))]
        exact ih st1 h (fun v hv => hna v (List.mem_cons_of_mem w hv))

end StepLemmas

/-! ## C4: terminal prompts finish the run successfully -/

/-- C4.  A window classified as the template-ready prompt or as the final
prompt makes `handle_envio_prompts` return `Ok(true)`: the driver loop
terminates at that step, and with a clean exit status and the config file
present the whole `init_project` run is successful. -/
theorem claim4_terminal_prompts (env : Env) (contracts : List ContractConfig)
    (w : String) (st : PState) (rest : List TermEvent)
    (hk : classify w = .templateReady ∨ classify w = .finalDone)
    (hne : contracts ≠ []) (hexit : env.exitOk = true)
    (hconf : env.configExists = true) :
    (∃ sends st2, handleEnvioPrompts env contracts w st = some (sends, st2, true)) ∧
    (∃ st2 tr, runScript env contracts (.window w :: rest) st = (.finished st2, tr)) ∧
    (initProject env contracts [.window w]).2 = .ok := by
  have hje : contracts.isEmpty = false := by
    cases contracts with
    | nil => exact absurd rfl hne
    | cons a l => rfl
  rcases hk with h | h
  · have hh : ∀ s : PState, handleEnvioPrompts env contracts w s =
        some ([.ctrl 'm'], s, true) := fun s => by
      unfold handleEnvioPrompts
      rw [h]
      rfl
    have hna : classify w ≠ .addAnother := by simp [h]
    refine ⟨⟨_, _, hh st⟩, ⟨st, [], ?_⟩, ?_⟩
    · exact runScript_window_finished env contracts w rest st _ st (hh st) hna
    · have hrun := runScript_window_finished env contracts w [] ⟨0, 0, false⟩
        _ ⟨0, 0, false⟩ (hh _) hna
      simp [initProject, hje, hrun, hexit, hconf]
  · have hh : ∀ s : PState, handleEnvioPrompts env contracts w s =
        some ([.ctrl 'm'], { s with success := true }, true) := fun s => by
      unfold handleEnvioPrompts
      rw [h]
      rfl
    have hna : classify w ≠ .addAnother := by simp [h]
    refine ⟨⟨_, _, hh st⟩, ⟨{ st with success := true }, [], ?_⟩, ?_⟩
    · exact runScript_window_finished env contracts w rest st _ _ (hh st) hna
    · have hrun := runScript_window_finished env contracts w [] ⟨0, 0, false⟩
        _ _ (hh _) hna
      simp [initProject, hje, hrun, hexit, hconf]

/-- Witness for C4 on the template window and the fixture list. -/
theorem claim4_terminal_prompts_witness :
    (∃ sends st2, handleEnvioPrompts envT [conA] templateW ⟨0, 0, false⟩ =
      some (sends, st2, true)) ∧
    (∃ st2 tr, runScript envT [conA] [.window templateW] ⟨0, 0, false⟩ =
      (.finished st2, tr)) ∧
    (initProject envT [conA] [.window templateW]).2 = .ok :=
  claim4_terminal_prompts envT [conA] templateW ⟨0, 0, false⟩ []
    (Or.inl (by decide)) (by decide) (by decide) (by decide)

/-! ## C5: the config artifact is required for success -/

/-- C5.  A successful `init_project` result requires `config.yaml` to
exist: whenever the run returns `Ok`, the config file was present, and a
run whose loop finished successfully but whose config file is absent
returns the `InvalidState` artifact error instead of `Ok`. -/
theorem claim5_artifact_required (env : Env) (contracts : List ContractConfig)
    (script : List TermEvent) :
    ((initProject env contracts script).2 = .ok → env.configExists = true) ∧
    (contracts ≠ [] → env.exitOk = true → env.configExists = false →
      (∃ stF trF, runScript env contracts script ⟨0, 0, false⟩ = (.finished stF, trF)) →
      (initProject env contracts script).2 =
        .err (.invalidState "Project initialization failed: config.yaml not created")) := by
  constructor
  · intro h
    by_cases he : contracts.isEmpty
    · simp [initProject, he] at h
    · cases hrs : runScript env contracts script ⟨0, 0, false⟩ with
      | mk ex tr =>
        cases ex <;> simp [initProject, he, hrs] at h <;> split_ifs at h with h1 h2 <;>
          first
            | exact h2
            | exact InitResult.noConfusion h
  · rintro hne hexit hconf ⟨stF, trF, hrun⟩
    have hje : contracts.isEmpty = false := by
      cases contracts with
      | nil => exact absurd rfl hne
      | cons a l => rfl
    simp [initProject, hje, hrun, hexit, hconf]

/-- Witness for C5: a run that reaches the template prompt with the config
file missing ends in the artifact error. -/
theorem claim5_artifact_required_witness :
    (∃ stF trF, runScript envNoConfig [conA] [.window templateW] ⟨0, 0, false⟩ =
      (.finished stF, trF)) ∧
    (initProject envNoConfig [conA] [.window templateW]).2 =
      .err (.invalidState "Project initialization failed: config.yaml not created") :=
  ⟨⟨⟨0, 0, false⟩, [], by decide⟩,
    (claim5_artifact_required envNoConfig [conA] [.window templateW]).2
      (by decide) (by decide) (by decide) ⟨⟨0, 0, false⟩, [], by decide⟩⟩

/-! ## C6: the cursor invariant -/

theorem planFor_valid (env : Env) (contracts : List ContractConfig)
    (hall : ∀ c ∈ contracts, c.deployments ≠ [])
    (k : PromptKind) (pe : Bool) (st : PState) (r : List Send × PState × Bool)
    (hv : validSt contracts st = true)
    (h : planFor env contracts k pe st = some r) :
    validSt contracts r.2.1 = true := by
  cases k with
  | folderName => simp only [planFor, Option.some.injEq] at h; subst h; exact hv
  | language => simp only [planFor, Option.some.injEq] at h; subst h; exact hv
  | ecosystem => simp only [planFor, Option.some.injEq] at h; subst h; exact hv
  | events => simp only [planFor, Option.some.injEq] at h; subst h; exact hv
  | chooseNetwork => simp only [planFor, Option.some.injEq] at h; subst h; exact hv
  | apiToken => simp only [planFor, Option.some.injEq] at h; subst h; exact hv
  | templateReady => simp only [planFor, Option.some.injEq] at h; subst h; exact hv
  | finalDone => simp only [planFor, Option.some.injEq] at h; subst h; exact hv
  | unrecognized =>
    simp only [planFor] at h
    cases pe <;> simp only [Bool.false_eq_true, if_false, if_true, reduceIte,
      Option.some.injEq] at h <;> subst h <;> exact hv
  | abiPath =>
    simp only [planFor] at h
    cases hc : contracts[st.contractIdx]? with
    | none => simp [hc] at h
    | some c =>
      simp only [hc, Option.some_bind, Option.some.injEq] at h
      subst h; exact hv
  | contractName =>
    simp only [planFor] at h
    cases hc : contracts[st.contractIdx]? with
    | none => simp [hc] at h
    | some c =>
      simp only [hc, Option.some_bind, Option.some.injEq] at h
      subst h; exact hv
  | importSource =>
    simp only [planFor] at h
    cases hc : contracts[st.contractIdx]? with
    | none => simp [hc] at h
    | some c =>
      simp only [hc, Option.some_bind] at h
      split at h <;> simp only [Option.some.injEq] at h <;> subst h <;> exact hv
  | networkId =>
    simp only [planFor] at h
    cases hc : contracts[st.contractIdx]? with
    | none => simp [hc] at h
    | some c =>
      cases hd : c.deployments[st.deploymentIdx]? with
      | none => simp [hc, hd] at h
      | some d =>
        simp only [hc, hd, Option.some_bind, Option.some.injEq] at h
        subst h; exact hv
  | contractAddress =>
    simp only [planFor] at h
    cases hc : contracts[st.contractIdx]? with
    | none => simp [hc] at h
    | some c =>
      cases hd : c.deployments[st.deploymentIdx]? with
      | none => simp [hc, hd] at h
      | some d =>
        simp only [hc, hd, Option.some_bind, Option.some.injEq] at h
        subst h; exact hv
  | blockchainList =>
    simp only [planFor] at h
    cases hc : contracts[st.contractIdx]? with
    | none => simp [hc] at h
    | some c =>
      cases hd : c.deployments[st.deploymentIdx]? with
      | none => simp [hc, hd] at h
      | some d =>
        simp only [hc, hd, Option.some_bind] at h
        cases hlk : lookupNetwork ((parseU64 d.network_id).getD 0) with
        | none => simp [hlk] at h
        | some nm =>
          simp only [hlk, Option.some_bind] at h
          cases hidx : env.chainList.findIdx? (fun x => x == hyphenate nm) with
          | none => simp [hidx] at h
          | some idx =>
            simp only [hidx, Option.some_bind, Option.some.injEq] at h
            subst h; exact hv
  | addAnother =>
    simp only [planFor] at h
    cases hc : contracts[st.contractIdx]? with
    | none => simp [hc] at h
    | some c =>
      cases hd : c.deployments[st.deploymentIdx]? with
      | none => simp [hc, hd] at h
      | some d =>
        simp only [hc, hd, Option.some_bind] at h
        by_cases h1 : st.deploymentIdx + 1 < c.deployments.length
        · rw [if_pos h1] at h
          cases hnd : c.deployments[st.deploymentIdx + 1]? with
          | none => simp [hnd] at h
          | some nd =>
            simp only [hnd, Option.some_bind] at h
            have hst : r.2.1 = { st with deploymentIdx := st.deploymentIdx + 1 } := by
              split at h <;> simp only [Option.some.injEq] at h <;> subst h <;> rfl
            rw [hst]
            simp [validSt, hc]
            exact h1
        · rw [if_neg h1] at h
          by_cases h2 : st.contractIdx + 1 < contracts.length
          · rw [if_pos h2] at h
            simp only [Option.some.injEq] at h
            subst h
            have hc2 : contracts[st.contractIdx + 1]? = some contracts[st.contractIdx + 1] :=
              List.getElem?_eq_getElem h2
            have hne2 : contracts[st.contractIdx + 1].deployments ≠ [] :=
              hall _ (List.getElem?_mem hc2)
            simp [validSt, hc2]
            exact List.length_pos.mpr hne2
          · rw [if_neg h2] at h
            simp only [Option.some.injEq] at h
            subst h
            exact hv

/-- C6.  With a non-empty contract list whose contracts all have
deployments, the cursor starts at `(0, 0)` satisfying the bounds
invariant, and every state update performed by `handle_envio_prompts`
preserves it: the contract index stays below the number of contracts and
the deployment index below the number of deployments of the current
contract. -/
theorem claim6_cursor_invariant (env : Env) (contracts : List ContractConfig)
    (hne : contracts ≠ []) (hall : ∀ c ∈ contracts, c.deployments ≠ []) :
    validSt contracts ⟨0, 0, false⟩ = true ∧
    (∀ w st r, validSt contracts st = true →
      handleEnvioPrompts env contracts w st = some r →
      validSt contracts r.2.1 = true) := by
  constructor
  · cases contracts with
    | nil => exact absurd rfl hne
    | cons c rest =>
      have hd : c.deployments ≠ [] := hall c (List.mem_cons_self c rest)
      simp [validSt]
      exact List.length_pos.mpr hd
  · intro w st r hv h
    exact planFor_valid env contracts hall (classify w) _ st r hv h

/-- Witness for C6 on the fixture list: the initial cursor is valid and
the add-another step from `(0, 0)` lands on the valid cursor `(0, 1)`. -/
theorem claim6_cursor_invariant_witness :
    validSt [conA] ⟨0, 0, false⟩ = true ∧ validSt [conA] ⟨0, 1, false⟩ = true :=
  ⟨(claim6_cursor_invariant envT [conA] (by decide) (by decide)).1,
    (claim6_cursor_invariant envT [conA] (by decide) (by decide)).2 addAnotherW
      ⟨0, 0, false⟩ ([downArrow, .ctrl 'm'], ⟨0, 1, false⟩, false)
      (by decide) (by decide)⟩

/-- Witness for C10: network id `10` resolves to `Optimism`, but an empty
chain list makes the position lookup panic, so the handler returns
`none`. -/
theorem claim10_blockchain_panics_witness :
    ([conB][0]? = some conB ∧ conB.deployments[0]? = some depOpt) ∧
    planFor envNoChains [conB] .blockchainList false ⟨0, 0, false⟩ = none ∧
    (planFor envNoChains [conB] .blockchainList false ⟨0, 0, false⟩ = none ↔
      ((∀ v, parseU64 depOpt.network_id = some v → lookupNetwork v = none) ∨
        (∃ nm, lookupNetwork ((parseU64 depOpt.network_id).getD 0) = some nm ∧
          envNoChains.chainList.findIdx? (fun x => x == hyphenate nm) = none))) :=
  ⟨⟨by decide, by decide⟩, by decide,
    claim10_blockchain_panics envNoChains [conB] ⟨0, 0, false⟩ conB depOpt
      (by decide) (by decide)⟩

/-! ## C2: the scripted full run machinery -/

theorem pairsSeq_eq_range (i : Nat) : ∀ n p : Nat,
    pairsSeq i p n = (List.range (n + 1)).map (fun j => (i, p + j)) := by
  intro n
  induction n with
  | zero =>
    intro p
    have h1 : List.range 1 = [0] := rfl
    simp [pairsSeq, h1]
  | succ n ih =>
    intro p
    show (i, p) :: pairsSeq i (p + 1) n = _
    rw [ih (p + 1)]
    conv_rhs => rw [List.range_succ_eq_map, List.map_cons, List.map_map]
    have hf : ((fun j => (i, p + j)) ∘ Nat.succ) = fun j => (i, p + 1 + j) := by
      funext j
      simp [Function.comp]
      omega
    rw [hf]
    simp

theorem newContractBlock_not_addAnother (c : ContractConfig) :
    ∀ w ∈ newContractBlock c, classify w ≠ .addAnother := by
  intro w hw
  have hmem : w = importSourceW ∨ w = abiPathW ∨ w = eventsW ∨ w = nameW ∨
      w = chooseNetworkW ∨ w = networkIdW ∨ w = addressW := by
    cases hsrc : c.source <;> simp [newContractBlock, hsrc] at hw <;> tauto
  rcases hmem with rfl | rfl | rfl | rfl | rfl | rfl | rfl <;> decide

theorem sameNetBlock_not_addAnother :
    ∀ w ∈ sameNetBlock, classify w ≠ .addAnother := by
  intro w hw
  simp [sameNetBlock] at hw
  subst hw
  decide

theorem diffNetBlock_not_addAnother :
    ∀ w ∈ diffNetBlock, classify w ≠ .addAnother := by
  intro w hw
  simp [diffNetBlock] at hw
  rcases hw with rfl | rfl | rfl <;> decide

theorem cont_newContractBlock (env : Env) (contracts : List ContractConfig)
    (st : PState) (c : ContractConfig) (d : ContractDeployment)
    (hc : contracts[st.contractIdx]? = some c)
    (hd : c.deployments[st.deploymentIdx]? = some d) :
    contWindows env contracts (newContractBlock c) st = some st := by
  obtain ⟨s1, h1⟩ := handle_importSourceW env contracts st c hc
  cases hsrc : c.source <;>
    simp [newContractBlock, hsrc, contWindows, h1,
      handle_abiPathW env contracts st c hc, handle_eventsW,
      handle_nameW env contracts st c hc, handle_chooseNetworkW,
      handle_networkIdW env contracts st c d hc hd,
      handle_addressW env contracts st c d hc hd]

theorem cont_sameNetBlock (env : Env) (contracts : List ContractConfig)
    (st : PState) (c : ContractConfig) (d : ContractDeployment)
    (hc : contracts[st.contractIdx]? = some c)
    (hd : c.deployments[st.deploymentIdx]? = some d) :
    contWindows env contracts sameNetBlock st = some st := by
  simp [sameNetBlock, contWindows, handle_addressW env contracts st c d hc hd]

theorem cont_diffNetBlock (env : Env) (contracts : List ContractConfig)
    (st : PState) (c : ContractConfig) (d : ContractDeployment)
    (hc : contracts[st.contractIdx]? = some c)
    (hd : c.deployments[st.deploymentIdx]? = some d) :
    contWindows env contracts diffNetBlock st = some st := by
  simp [diffNetBlock, contWindows, handle_chooseNetworkW,
    handle_networkIdW env contracts st c d hc hd,
    handle_addressW env contracts st c d hc hd]

theorem depsTail_run (env : Env) (contracts : List ContractConfig)
    (i : Nat) (c : ContractConfig) (K : List TermEvent) (trK : List (Nat × Nat))
    (hc : contracts[i]? = some c)
    (HKadv : contracts.drop (i + 1) ≠ [] →
      ∃ stF, runScript env contracts K ⟨i + 1, 0, false⟩ = (.finished stF, trK)) :
    ∀ (rest : List ContractDeployment) (prev : ContractDeployment) (p : Nat),
      c.deployments.drop p = prev :: rest →
      (contracts.drop (i + 1) = [] →
        ∃ stF, runScript env contracts K ⟨i, p + rest.length, false⟩ =
          (.finished stF, trK)) →
      ∃ stF, runScript env contracts
          ((depsTail prev rest).map .window ++ K) ⟨i, p, false⟩ =
        (.finished stF, pairsSeq i p rest.length ++ trK) := by
  intro rest
  induction rest with
  | nil =>
    intro prev p hdrop HKstay
    have h0 : c.deployments[p + 0]? = some prev := by
      rw [← List.getElem?_drop, hdrop]
      simp
    have hdp : c.deployments[p]? = some prev := by simpa using h0
    have hplen : p < c.deployments.length := (List.getElem?_eq_some.mp hdp).1
    have hlen : c.deployments.length = p + 1 := by
      have hld := List.length_drop p c.deployments
      rw [hdrop] at hld
      simp at hld
      omega
    have hnlt : ¬ p + 1 < c.deployments.length := by omega
    rw [show (depsTail prev []).map TermEvent.window ++ K =
      .window addAnotherW :: K by simp [depsTail]]
    by_cases hpost : contracts.drop (i + 1) = []
    · have hclen : ¬ i + 1 < contracts.length := by
        have := List.drop_eq_nil_iff.mp hpost
        omega
      have hplan : planFor env contracts .addAnother false ⟨i, p, false⟩ =
          some ([.ctrl 'm'], ⟨i, p, false⟩, false) := by
        simp [planFor, hc, hdp, hnlt, hclen]
      obtain ⟨stF, hK⟩ := HKstay hpost
      simp only [List.length_nil, Nat.add_zero] at hK
      refine ⟨stF, ?_⟩
      rw [runScript_addAnother env contracts K ⟨i, p, false⟩ _ _ hplan, hK]
      simp [pairsSeq]
    · have hclt : i + 1 < contracts.length := by
        have := mt List.drop_eq_nil_iff.mpr hpost
        omega
      have hplan : planFor env contracts .addAnother false ⟨i, p, false⟩ =
          some ([downArrow, downArrow, downArrow, .ctrl 'm'], ⟨i + 1, 0, false⟩, false) := by
        simp [planFor, hc, hdp, hnlt, hclt]
      obtain ⟨stF, hK⟩ := HKadv hpost
      refine ⟨stF, ?_⟩
      rw [runScript_addAnother env contracts K ⟨i, p, false⟩ _ _ hplan, hK]
      simp [pairsSeq]
  | cons d1 rest2 ih =>
    intro prev p hdrop HKstay
    have h0 : c.deployments[p + 0]? = some prev := by
      rw [← List.getElem?_drop, hdrop]
      simp
    have hdp : c.deployments[p]? = some prev := by simpa using h0
    have hd1 : c.deployments[p + 1]? = some d1 := by
      rw [← List.getElem?_drop, hdrop]
      simp
    have hplen : p < c.deployments.length := (List.getElem?_eq_some.mp hdp).1
    have hlen : c.deployments.length = p + (rest2.length + 2) := by
      have hld := List.length_drop p c.deployments
      rw [hdrop] at hld
      simp at hld
      omega
    have hlt : p + 1 < c.deployments.length := by omega
    have hdrop2 : c.deployments.drop (p + 1) = d1 :: rest2 := by
      have hdd : (c.deployments.drop p).drop 1 = c.deployments.drop (p + 1) := by
        rw [List.drop_drop]
      rw [hdrop] at hdd
      simpa using hdd.symm
    have HKstay2 : contracts.drop (i + 1) = [] →
        ∃ stF, runScript env contracts K ⟨i, (p + 1) + rest2.length, false⟩ =
          (.finished stF, trK) := by
      intro hpost
      obtain ⟨stF, hK⟩ := HKstay hpost
      refine ⟨stF, ?_⟩
      rw [show p + 1 + rest2.length = p + (d1 :: rest2).length by simp; omega]
      exact hK
    obtain ⟨stF, hrec⟩ := ih d1 (p + 1) hdrop2 HKstay2
    refine ⟨stF, ?_⟩
    have hscript : (depsTail prev (d1 :: rest2)).map TermEvent.window ++ K =
        .window addAnotherW ::
          (((if d1.network_id == prev.network_id then sameNetBlock
             else diffNetBlock)).map .window ++
            ((depsTail d1 rest2).map .window ++ K)) := by
      simp [depsTail, List.map_append]
    rw [hscript]
    by_cases hnet : (d1.network_id == prev.network_id) = true
    · have hplan : planFor env contracts .addAnother false ⟨i, p, false⟩ =
          some ([downArrow, .ctrl 'm'], ⟨i, p + 1, false⟩, false) := by
        simp [planFor, hc, hdp, hlt, hd1, hnet]
      rw [runScript_addAnother env contracts _ ⟨i, p, false⟩ _ _ hplan]
      rw [if_pos hnet]
      rw [runScript_windows_append env contracts sameNetBlock _ ⟨i, p + 1, false⟩
        ⟨i, p + 1, false⟩
        (cont_sameNetBlock env contracts ⟨i, p + 1, false⟩ c d1 hc hd1)
        sameNetBlock_not_addAnother]
      rw [hrec]
      simp [pairsSeq]
    · have hnet2 : (d1.network_id == prev.network_id) = false := by
        simpa using hnet
      have hplan : planFor env contracts .addAnother false ⟨i, p, false⟩ =
          some ([downArrow, downArrow, .ctrl 'm'], ⟨i, p + 1, false⟩, false) := by
        simp [planFor, hc, hdp, hlt, hd1, hnet2]
      rw [runScript_addAnother env contracts _ ⟨i, p, false⟩ _ _ hplan]
      rw [if_neg (by simp [hnet2])]
      rw [runScript_windows_append env contracts diffNetBlock _ ⟨i, p + 1, false⟩
        ⟨i, p + 1, false⟩
        (cont_diffNetBlock env contracts ⟨i, p + 1, false⟩ c d1 hc hd1)
        diffNetBlock_not_addAnother]
      rw [hrec]
      simp [pairsSeq]

theorem contractsTail_run (env : Env) (contracts : List ContractConfig) :
    ∀ (post : List ContractConfig) (i : Nat),
      contracts.drop i = post →
      (∀ c ∈ post, c.deployments ≠ []) →
      ∃ stF, runScript env contracts
          ((contractsTail post ++ [templateW]).map .window) ⟨i, 0, false⟩ =
        (.finished stF, pairsAux i post) := by
  intro post
  induction post with
  | nil =>
    intro i hdrop hall
    refine ⟨⟨i, 0, false⟩, ?_⟩
    rw [show (contractsTail [] ++ [templateW]).map TermEvent.window =
      [.window templateW] from rfl]
    rw [runScript_window_finished env contracts templateW [] ⟨i, 0, false⟩ _ _
      (handle_templateW env contracts _) (by simp [classify_templateW])]
    simp [pairsAux]
  | cons c post2 ih =>
    intro i hdrop hall
    have hc : contracts[i]? = some c := by
      have h0 := List.getElem?_drop contracts i 0
      rw [hdrop] at h0
      simpa using h0.symm
    have hdrop1 : contracts.drop (i + 1) = post2 := by
      have hdd : (contracts.drop i).drop 1 = contracts.drop (i + 1) := by
        rw [List.drop_drop]
      rw [hdrop] at hdd
      simpa using hdd.symm
    cases hdeps : c.deployments with
    | nil => exact absurd hdeps (hall c (List.mem_cons_self c post2))
    | cons d ds =>
      have hdp0 : c.deployments[0]? = some d := by rw [hdeps]; simp
      have hscript : (contractsTail (c :: post2) ++ [templateW]).map TermEvent.window =
          (newContractBlock c).map .window ++
            ((depsTail d ds).map .window ++
              ((contractsTail post2 ++ [templateW]).map .window)) := by
        simp [contractsTail, hdeps, List.map_append]
      rw [hscript]
      rw [runScript_windows_append env contracts (newContractBlock c) _
        ⟨i, 0, false⟩ ⟨i, 0, false⟩
        (cont_newContractBlock env contracts ⟨i, 0, false⟩ c d hc hdp0)
        (newContractBlock_not_addAnother c)]
      have HKadv : contracts.drop (i + 1) ≠ [] →
          ∃ stF, runScript env contracts
              ((contractsTail post2 ++ [templateW]).map .window) ⟨i + 1, 0, false⟩ =
            (.finished stF, pairsAux (i + 1) post2) :=
        fun _ => ih (i + 1) hdrop1
          (fun c2 hc2 => hall c2 (List.mem_cons_of_mem c hc2))
      have HKstay : contracts.drop (i + 1) = [] →
          ∃ stF, runScript env contracts
              ((contractsTail post2 ++ [templateW]).map .window) ⟨i, 0 + ds.length, false⟩ =
            (.finished stF, pairsAux (i + 1) post2) := by
        intro hpost
        have hpost2 : post2 = [] := by rw [hdrop1] at hpost; exact hpost
        subst hpost2
        refine ⟨⟨i, 0 + ds.length, false⟩, ?_⟩
        rw [show (contractsTail [] ++ [templateW]).map TermEvent.window =
          [.window templateW] from rfl]
        rw [runScript_window_finished env contracts templateW [] _ _ _
          (handle_templateW env contracts _) (by simp [classify_templateW])]
        simp [pairsAux]
      have hdrop0 : c.deployments.drop 0 = d :: ds := by
        rw [List.drop_zero, hdeps]
      obtain ⟨stF, hrun⟩ :=
        depsTail_run env contracts i c
          ((contractsTail post2 ++ [templateW]).map .window)
          (pairsAux (i + 1) post2) hc HKadv ds d 0 hdrop0 HKstay
      refine ⟨stF, ?_⟩
      rw [hrun]
      have htr : pairsSeq i 0 ds.length ++ pairsAux (i + 1) post2 =
          pairsAux i (c :: post2) := by
        rw [pairsSeq_eq_range]
        simp [pairsAux, hdeps]
      rw [htr]

/-- C2.  For every non-empty contract list whose contracts all have
deployments, driving the loop against the scripted wizard prompt sequence
finishes in the success outcome, and the cursor positions recorded at the
add-another-contract prompts are exactly all `(contract_index,
deployment_index)` pairs, each once, in list order. -/
theorem claim2_scripted_run (env : Env) (contracts : List ContractConfig)
    (hne : contracts ≠ []) (hall : ∀ c ∈ contracts, c.deployments ≠ [])
    (hexit : env.exitOk = true) (hconf : env.configExists = true) :
    (initProject env contracts (knownScript contracts)).2 = .ok ∧
    (runScript env contracts (knownScript contracts) ⟨0, 0, false⟩).2 =
      allPairs contracts := by
  have hpre : contWindows env contracts [folderW, languageW] ⟨0, 0, false⟩ =
      some ⟨0, 0, false⟩ := by
    simp [contWindows, handle_folderW, handle_languageW]
  obtain ⟨stF, hrun⟩ :=
    contractsTail_run env contracts contracts 0 (List.drop_zero contracts) hall
  have hk : knownScript contracts =
      [folderW, languageW].map TermEvent.window ++
        ((contractsTail contracts ++ [templateW]).map TermEvent.window) := by
    simp [knownScript, List.map_append]
  have hfull : runScript env contracts (knownScript contracts) ⟨0, 0, false⟩ =
      (.finished stF, pairsAux 0 contracts) := by
    rw [hk, runScript_windows_append env contracts [folderW, languageW] _ _ _ hpre
      (by intro w hw; simp at hw; rcases hw with rfl | rfl <;> decide), hrun]
  constructor
  · have hje : contracts.isEmpty = false := by
      cases contracts with
      | nil => exact absurd rfl hne
      | cons a l => rfl
    simp [initProject, hje, hfull, hexit, hconf]
  · rw [hfull]
    rfl

/-- Witness for C2 on the fixture list of two contracts, with two
deployments on the first. -/
theorem claim2_scripted_run_witness :
    (initProject envT [conA, conB] (knownScript [conA, conB])).2 = .ok ∧
    (runScript envT [conA, conB] (knownScript [conA, conB]) ⟨0, 0, false⟩).2 =
      allPairs [conA, conB] :=
  claim2_scripted_run envT [conA, conB] (by decide) (by decide) (by decide) (by decide)

/-! ## C3: end of input before a terminal prompt -/

theorem planFor_finalDone_true (env : Env) (contracts : List ContractConfig)
    (pe : Bool) (st : PState) (r : List Send × PState × Bool)
    (h : planFor env contracts .finalDone pe st = some r) : r.2.2 = true := by
  simp only [planFor, Option.some.injEq] at h
  subst h
  rfl

theorem planFor_success_of_ne (env : Env) (contracts : List ContractConfig)
    (k : PromptKind) (pe : Bool) (st : PState) (r : List Send × PState × Bool)
    (h : planFor env contracts k pe st = some r) (hk : k ≠ PromptKind.finalDone) :
    r.2.1.success = st.success := by
  cases k with
  | finalDone => exact absurd rfl hk
  | folderName => simp only [planFor, Option.some.injEq] at h; subst h; rfl
  | language => simp only [planFor, Option.some.injEq] at h; subst h; rfl
  | ecosystem => simp only [planFor, Option.some.injEq] at h; subst h; rfl
  | events => simp only [planFor, Option.some.injEq] at h; subst h; rfl
  | chooseNetwork => simp only [planFor, Option.some.injEq] at h; subst h; rfl
  | apiToken => simp only [planFor, Option.some.injEq] at h; subst h; rfl
  | templateReady => simp only [planFor, Option.some.injEq] at h; subst h; rfl
  | unrecognized =>
    simp only [planFor] at h
    cases pe <;> simp only [Bool.false_eq_true, if_false, if_true, reduceIte,
      Option.some.injEq] at h <;> subst h <;> rfl
  | abiPath =>
    simp only [planFor] at h
    cases hc : contracts[st.contractIdx]? with
    | none => simp [hc] at h
    | some c => simp only [hc, Option.some.injEq] at h; subst h; rfl
  | contractName =>
    simp only [planFor] at h
    cases hc : contracts[st.contractIdx]? with
    | none => simp [hc] at h
    | some c => simp only [hc, Option.some.injEq] at h; subst h; rfl
  | importSource =>
    simp only [planFor] at h
    cases hc : contracts[st.contractIdx]? with
    | none => simp [hc] at h
    | some c =>
      simp only [hc] at h
      split at h <;> simp only [Option.some.injEq] at h <;> subst h <;> rfl
  | networkId =>
    simp only [planFor] at h
    cases hc : contracts[st.contractIdx]? with
    | none => simp [hc] at h
    | some c =>
      cases hd : c.deployments[st.deploymentIdx]? with
      | none => simp [hc, hd] at h
      | some d => simp only [hc, hd, Option.some.injEq] at h; subst h; rfl
  | contractAddress =>
    simp only [planFor] at h
    cases hc : contracts[st.contractIdx]? with
    | none => simp [hc] at h
    | some c =>
      cases hd : c.deployments[st.deploymentIdx]? with
      | none => simp [hc, hd] at h
      | some d => simp only [hc, hd, Option.some.injEq] at h; subst h; rfl
  | blockchainList =>
    simp only [planFor] at h
    cases hc : contracts[st.contractIdx]? with
    | none => simp [hc] at h
    | some c =>
      cases hd : c.deployments[st.deploymentIdx]? with
      | none => simp [hc, hd] at h
      | some d =>
        cases hlk : lookupNetwork ((parseU64 d.network_id).getD 0) with
        | none => simp [hc, hd, hlk] at h
        | some nm =>
          cases hidx : env.chainList.findIdx? (fun x => x == hyphenate nm) with
          | none => simp [hc, hd, hlk, hidx] at h
          | some idx =>
            simp only [hc, hd, hlk, hidx, Option.some.injEq] at h
            subst h
            rfl
  | addAnother =>
    simp only [planFor] at h
    cases hc : contracts[st.contractIdx]? with
    | none => simp [hc] at h
    | some c =>
      cases hd : c.deployments[st.deploymentIdx]? with
      | none => simp [hc, hd] at h
      | some d =>
        simp only [hc, hd] at h
        by_cases h1 : st.deploymentIdx + 1 < c.deployments.length
        · rw [if_pos h1] at h
          cases hnd : c.deployments[st.deploymentIdx + 1]? with
          | none => simp [hnd] at h
          | some nd =>
            simp only [hnd] at h
            split at h <;> simp only [Option.some.injEq] at h <;> subst h <;> rfl
        · rw [if_neg h1] at h
          by_cases h2 : st.contractIdx + 1 < contracts.length
          · rw [if_pos h2] at h
            simp only [Option.some.injEq] at h
            subst h
            rfl
          · rw [if_neg h2] at h
            simp only [Option.some.injEq] at h
            subst h
            rfl

theorem planFor_sends_ne (env : Env) (contracts : List ContractConfig)
    (k : PromptKind) (st : PState) (r : List Send × PState × Bool)
    (h : planFor env contracts k false st = some r) : r.1 ≠ [] := by
  cases k with
  | folderName => simp only [planFor, Option.some.injEq] at h; subst h; simp
  | language => simp only [planFor, Option.some.injEq] at h; subst h; simp
  | ecosystem => simp only [planFor, Option.some.injEq] at h; subst h; simp
  | events => simp only [planFor, Option.some.injEq] at h; subst h; simp
  | chooseNetwork => simp only [planFor, Option.some.injEq] at h; subst h; simp
  | apiToken => simp only [planFor, Option.some.injEq] at h; subst h; simp
  | templateReady => simp only [planFor, Option.some.injEq] at h; subst h; simp
  | finalDone => simp only [planFor, Option.some.injEq] at h; subst h; simp
  | unrecognized =>
    simp only [planFor, Bool.false_eq_true, if_false, Option.some.injEq] at h
    subst h
    simp
  | abiPath =>
    simp only [planFor] at h
    cases hc : contracts[st.contractIdx]? with
    | none => simp [hc] at h
    | some c => simp only [hc, Option.some.injEq] at h; subst h; simp
  | contractName =>
    simp only [planFor] at h
    cases hc : contracts[st.contractIdx]? with
    | none => simp [hc] at h
    | some c => simp only [hc, Option.some.injEq] at h; subst h; simp
  | importSource =>
    simp only [planFor] at h
    cases hc : contracts[st.contractIdx]? with
    | none => simp [hc] at h
    | some c =>
      simp only [hc] at h
      split at h <;> simp only [Option.some.injEq] at h <;> subst h <;> simp
  | networkId =>
    simp only [planFor] at h
    cases hc : contracts[st.contractIdx]? with
    | none => simp [hc] at h
    | some c =>
      cases hd : c.deployments[st.deploymentIdx]? with
      | none => simp [hc, hd] at h
      | some d => simp only [hc, hd, Option.some.injEq] at h; subst h; simp
  | contractAddress =>
    simp only [planFor] at h
    cases hc : contracts[st.contractIdx]? with
    | none => simp [hc] at h
    | some c =>
      cases hd : c.deployments[st.deploymentIdx]? with
      | none => simp [hc, hd] at h
      | some d => simp only [hc, hd, Option.some.injEq] at h; subst h; simp
  | blockchainList =>
    simp only [planFor] at h
    cases hc : contracts[st.contractIdx]? with
    | none => simp [hc] at h
    | some c =>
      cases hd : c.deployments[st.deploymentIdx]? with
      | none => simp [hc, hd] at h
      | some d =>
        cases hlk : lookupNetwork ((parseU64 d.network_id).getD 0) with
        | none => simp [hc, hd, hlk] at h
        | some nm =>
          cases hidx : env.chainList.findIdx? (fun x => x == hyphenate nm) with
          | none => simp [hc, hd, hlk, hidx] at h
          | some idx =>
            simp only [hc, hd, hlk, hidx, Option.some.injEq] at h
            subst h
            simp
  | addAnother =>
    simp only [planFor] at h
    cases hc : contracts[st.contractIdx]? with
    | none => simp [hc] at h
    | some c =>
      cases hd : c.deployments[st.deploymentIdx]? with
      | none => simp [hc, hd] at h
      | some d =>
        simp only [hc, hd] at h
        by_cases h1 : st.deploymentIdx + 1 < c.deployments.length
        · rw [if_pos h1] at h
          cases hnd : c.deployments[st.deploymentIdx + 1]? with
          | none => simp [hnd] at h
          | some nd =>
            simp only [hnd] at h
            split at h <;> simp only [Option.some.injEq] at h <;> subst h <;> simp
        · rw [if_neg h1] at h
          by_cases h2 : st.contractIdx + 1 < contracts.length
          · rw [if_pos h2] at h
            simp only [Option.some.injEq] at h
            subst h
            simp
          · rw [if_neg h2] at h
            simp only [Option.some.injEq] at h
            subst h
            simp

theorem contWindows_success (env : Env) (contracts : List ContractConfig) :
    ∀ (ws : List String) (st st' : PState),
      contWindows env contracts ws st = some st' → st'.success = st.success := by
  intro ws
  induction ws with
  | nil =>
    intro st st' h
    obtain rfl : st = st' := Option.some.inj h
    rfl
  | cons w ws ih =>
    intro st st' h
    cases hh : handleEnvioPrompts env contracts w st with
    | none => rw [contWindows, hh] at h; cases h
    | some r =>
      obtain ⟨s, st1, fin⟩ := r
      cases fin with
      | true => rw [contWindows, hh] at h; cases h
      | false =>
        rw [contWindows, hh] at h
        have h1 : st1.success = st.success := by
          by_cases hk : classify w = PromptKind.finalDone
          · have hfd : planFor env contracts PromptKind.finalDone
                ((currentPromptL w).isEmpty) st = some (s, st1, false) := by
              rw [← hk]
              exact hh
            have := planFor_finalDone_true env contracts _ st _ hfd
            exact absurd this (by simp)
          · exact planFor_success_of_ne env contracts (classify w) _ st _ hh hk
        rw [ih st1 st' h, h1]

theorem runScript_exit_of_contWindows (env : Env) (contracts : List ContractConfig) :
    ∀ (ws : List String) (evs : List TermEvent) (st st' : PState),
      contWindows env contracts ws st = some st' →
      (runScript env contracts (ws.map .window ++ evs) st).1 =
        (runScript env contracts evs st').1 := by
  intro ws
  induction ws with
  | nil =>
    intro evs st st' h
    obtain rfl : st = st' := Option.some.inj h
    simp
  | cons w ws ih =>
    intro evs st st' h
    cases hh : handleEnvioPrompts env contracts w st with
    | none => rw [contWindows, hh] at h; cases h
    | some r =>
      obtain ⟨s, st1, fin⟩ := r
      cases fin with
      | true => rw [contWindows, hh] at h; cases h
      | false =>
        rw [contWindows, hh] at h
        rw [List.map_cons, List.cons_append]
        have hstep : (runScript env contracts
            (.window w :: (ws.map .window ++ evs)) st).1 =
            (runScript env contracts (ws.map .window ++ evs) st1).1 := by
          simp [runScript, hh]
        rw [hstep]
        exact ih evs st1 st' h

/-- C3, amended.  If the session reports end of input before any
template-ready or final prompt has been classified (all prior windows
were continue steps and the pending window is not the final prompt), and
the pending output window still contains a question line — so the planner
attempts a write, which fails with the raw OS error 5 on the closed
pseudo terminal — and the handler does not panic, then the run ends with
the `ProcessFailed` error `Envio process exited unexpectedly` — the
embedding of `UnexpectedTermination` — and the artifact check is never
reached: the result is this error for every value of `configExists`.
The question-line and no-panic hypotheses are forced by the code and
refute the claim as stated: `read_line` swallows the EOF inside
`handle_envio_prompts`, so with no question line pending the handler
writes nothing and returns `Ok(false)`, the OS error 5 path is never
taken, and the loop re-polls forever instead of ending in any error. -/
theorem claim3_eof_before_terminal (env : Env) (contracts : List ContractConfig)
    (pre : List String) (w : String) (st' : PState)
    (r : List Send × PState × Bool)
    (hne : contracts ≠ [])
    (hpre : contWindows env contracts pre ⟨0, 0, false⟩ = some st')
    (hq : (currentPromptL w).isEmpty = false)
    (hnf : classify w ≠ PromptKind.finalDone)
    (hsome : handleEnvioPrompts env contracts w st' = some r) :
    (initProject env contracts (pre.map .window ++ [.eofWith w])).2 =
      .err (.processFailed "Envio process exited unexpectedly") := by
  have hje : contracts.isEmpty = false := by
    cases contracts with
    | nil => exact absurd rfl hne
    | cons a l => rfl
  have hsucc0 : st'.success = false :=
    contWindows_success env contracts pre ⟨0, 0, false⟩ st' hpre
  have hplan : planFor env contracts (classify w) false st' = some r := by
    have h0 := hsome
    unfold handleEnvioPrompts at h0
    rw [hq] at h0
    exact h0
  obtain ⟨sends, st2, fin⟩ := r
  have hsne : sends ≠ [] := planFor_sends_ne env contracts (classify w) st' _ hplan
  have hsee : sends.isEmpty = false := by
    cases sends with
    | nil => exact absurd rfl hsne
    | cons a l => rfl
  have hsucc2 : st2.success = false := by
    have := planFor_success_of_ne env contracts (classify w) _ st' _ hsome hnf
    rw [this, hsucc0]
  have hstep : runScript env contracts [.eofWith w] st' = (.errExited, []) := by
    simp [runScript, hsome, hsee, hsucc2]
  have hexit : (runScript env contracts
      (pre.map .window ++ [.eofWith w]) ⟨0, 0, false⟩).1 = .errExited := by
    rw [runScript_exit_of_contWindows env contracts pre [.eofWith w] _ st' hpre, hstep]
  simp [initProject, hje, hexit]

/-- Witness for C3: one contract-name step, then the address prompt is
pending when the wizard dies. -/
theorem claim3_eof_before_terminal_witness :
    (initProject envT [conA] ([nameW].map .window ++ [.eofWith addressW])).2 =
      .err (.processFailed "Envio process exited unexpectedly") :=
  claim3_eof_before_terminal envT [conA] [nameW] addressW ⟨0, 0, false⟩
    ([.text (normalizeAddress depEth.address), .ctrl 'm'], ⟨0, 0, false⟩, false)
    (by decide) (by decide) (by decide) (by decide) (by decide)

/-- Counterexample to C3 as stated: end of input arriving with no pending
question line does not end the run in the unexpected-termination error.
On the empty window the handler writes nothing, leaves the iteration
state unchanged and returns `Ok(false)`, so every further loop iteration
repeats identically and the run never terminates; the modelled run yields
`hung`, which is neither the process-failed error nor `ok`. -/
theorem claim3_hung_counterexample :
    handleEnvioPrompts envT [conA] "" ⟨0, 0, false⟩ =
      some ([], ⟨0, 0, false⟩, false) ∧
    (initProject envT [conA] [.eofWith ""]).2 = InitResult.hung ∧
    InitResult.hung ≠ .err (.processFailed "Envio process exited unexpectedly") ∧
    InitResult.hung ≠ InitResult.ok := by
  refine ⟨by decide, by decide, by decide, by decide⟩

end EnvioSpec
